import Mathlib

set_option autoImplicit false

/-!
Verification of the Catalog Integrity & Order Ledger subsystem of the
`kwetu-website` repository (a Flask + SQLite sales-operations ledger,
`app.py`).  The Python code is shallowly embedded: strings are `String` /
`List Char` (the relevant Python string operations are reproduced at the
character level for the ASCII inputs the system handles), SQLite `REAL`
values are modelled as exact rationals with an explicit round-half-to-even
two-decimal rounding, tables are Lean lists of records, and each HTTP
handler's data logic becomes a pure function from an input and a database
state to a result and a new database state.  String-to-number form parsing
is abstracted: handlers receive already-parsed optional numeric fields.
-/

namespace Kwetu

/-! ### Python-style string primitives -/

/-- Python whitespace characters recognised by `str.strip`. -/
def wsChar (c : Char) : Bool :=
  c = ' ' || c = '\t' || c = '\n' || c = '\r' || c = '\x0b' || c = '\x0c'

def isAsciiUpper (c : Char) : Bool := 'A' ≤ c && c ≤ 'Z'

def isAsciiLower (c : Char) : Bool := 'a' ≤ c && c ≤ 'z'

def isAsciiAlpha (c : Char) : Bool := isAsciiUpper c || isAsciiLower c

/-- ASCII lower-casing of one character (the labels handled by the app are
ASCII; `×` U+00D7 is not a cased letter, so this agrees with Python
`str.lower` and SQLite `lower()` on the app's data). -/
def lowerChar (c : Char) : Char :=
  if isAsciiUpper c then Char.ofNat (c.toNat + 32) else c

def upperChar (c : Char) : Char :=
  if isAsciiLower c then Char.ofNat (c.toNat - 32) else c

/-- Python `str.lower` (ASCII fragment). -/
def lowerL (s : List Char) : List Char := s.map lowerChar

/-- Python `str.strip`: drop leading and trailing whitespace. -/
def stripL (s : List Char) : List Char :=
  ((s.dropWhile wsChar).reverse.dropWhile wsChar).reverse

/-- Does `pat` occur as a contiguous substring of `s`?  (Python `pat in s`.) -/
def occurs (pat : List Char) : List Char → Bool
  | [] => pat.isEmpty
  | c :: rest => pat.isPrefixOf (c :: rest) || occurs pat rest

/-- Python `str.replace`: replace the leftmost non-overlapping occurrences
of `pat` by `rep`, scanning left to right.  `fuel` bounds the number of scan
steps; every step consumes at least one input character, so fuel
`s.length` (as used by `replaceL`) always completes the scan. -/
def replaceF (pat rep : List Char) : Nat → List Char → List Char
  | 0, s => s
  | _ + 1, [] => []
  | fuel + 1, c :: rest =>
    if !pat.isEmpty && pat.isPrefixOf (c :: rest) then
      rep ++ replaceF pat rep fuel ((c :: rest).drop pat.length)
    else
      c :: replaceF pat rep fuel rest

/-- Python `s.replace(pat, rep)` for non-empty `pat`. -/
def replaceL (pat rep s : List Char) : List Char :=
  replaceF pat rep s.length s

def spc : List Char := [' ']

def spc2 : List Char := [' ', ' ']

/-- The loop `while "  " in s: s = s.replace("  ", " ")`.  Each iteration
with a double space present strictly shortens the string, so fuel
`s.length` (as used by `collapseSpaces`) runs the loop to completion. -/
def collapseSpacesF : Nat → List Char → List Char
  | 0, s => s
  | fuel + 1, s =>
    if occurs spc2 s then collapseSpacesF fuel (replaceL spc2 spc s) else s

def collapseSpaces (s : List Char) : List Char :=
  collapseSpacesF s.length s

/-- Python `str.title` (ASCII fragment): a letter that follows a letter is
lower-cased, any other letter is upper-cased. -/
def titleGo : Bool → List Char → List Char
  | _, [] => []
  | prevAlpha, c :: rest =>
    (if isAsciiAlpha c then (if prevAlpha then lowerChar c else upperChar c) else c)
      :: titleGo (isAsciiAlpha c) rest

def pyTitle (s : String) : String := String.mk (titleGo false s.data)

def pyStrip (s : String) : String := String.mk (stripL s.data)

def pyLower (s : String) : String := String.mk (lowerL s.data)

/-! ### Canonicalization engine (`_canon`, `_canon_pair`, app.py:460-490)

The stage order reproduces the Python source exactly, including the order
of the `replace` calls (`"pkt"` before `"pkts"`, `" gms"` before `" gm"`,
and so on). -/

/-- Embeds `_canon` (app.py:460). -/
def _canon_list (t : List Char) : List Char :=
  if t.isEmpty then [] else
  let s := lowerL (stripL t)
  let s := replaceL ['×'] ['x'] s
  let s := collapseSpaces s
  let s := replaceL [' ', 'x', ' '] ['x'] s
  let s := replaceL [' ', 'x'] ['x'] s
  let s := replaceL ['x', ' '] ['x'] s
  let s := replaceL ['p', 'k', 't'] ['p', 'k'] s
  let s := replaceL ['p', 'k', 't', 's'] ['p', 'k'] s
  let s := replaceL [' ', 'g', 'm', 's'] [' ', 'g'] s
  let s := replaceL [' ', 'g', 'm'] [' ', 'g'] s
  let s := replaceL ['g', 'm', 's'] ['g'] s
  let s := replaceL ['g', 'm'] ['g'] s
  let s := replaceL [' ', 'k', 'g', 's'] [' ', 'k', 'g'] s
  let s := replaceL ['k', 'g', 's'] ['k', 'g'] s
  let s := replaceL [' ', 'm', 'l', 's'] [' ', 'm', 'l'] s
  let s := replaceL ['m', 'l', 's'] ['m', 'l'] s
  let s := replaceL spc2 spc s
  let s := if [' ', 'z'].isSuffixOf s then s.take (s.length - 2) ++ ['z'] else s
  let s := if [' ', 'v'].isSuffixOf s then s.take (s.length - 2) ++ ['v'] else s
  s

/-- Embeds `_canon` (app.py:460) on `String`. -/
def _canon (s : String) : String := String.mk (_canon_list s.data)

/-- Embeds `_canon_pair` (app.py:488): canonical key of a merged
`name + " " + pack` label. -/
def _canon_pair (prodName pack : String) : String :=
  _canon (String.mk (stripL (prodName ++ " " ++ pack).data))

/-! ### Numeric model

SQLite `REAL` values are modelled as exact rationals.  Python `round(x, 2)`
rounds half to even; `int(x)` truncates toward zero. -/

/-- Round half to even to an integer (Python `round` on exact values). -/
def roundHalfEven (q : ℚ) : ℤ :=
  let f := ⌊q⌋
  if q - f < 1 / 2 then f
  else if 1 / 2 < q - f then f + 1
  else if f % 2 = 0 then f else f + 1

/-- Python `round(x, 2)`. -/
def round2 (q : ℚ) : ℚ := (roundHalfEven (q * 100) : ℚ) / 100

/-- Python `int(x)` applied to a float: truncation toward zero. -/
def truncInt (q : ℚ) : ℤ := if q < 0 then ⌈q⌉ else ⌊q⌋

/-! ### Catalog manager (suppliers and products, app.py:492-613) -/

structure SupplierRow where
  id : Int
  name : String
  deriving DecidableEq

structure ProductRow where
  id : Int
  supplier_id : Int
  product_name : Option String
  unit_pack_info : Option String
  name : Option String
  deriving DecidableEq

/-- The supplier/product slice of the database.  `nextSupplierId` and
`nextProductId` model the `AUTOINCREMENT` counters (`cur.lastrowid`);
`hasLegacyNameCol` models `has_column(conn, "products", "name")`. -/
structure CatalogDb where
  suppliers : List SupplierRow
  nextSupplierId : Int
  products : List ProductRow
  nextProductId : Int
  hasLegacyNameCol : Bool
  deriving DecidableEq

/-- Embeds `_upsert_supplier` (app.py:492): trim the name, return the
sentinel id `0` when empty, otherwise look up by `lower(name) = lower(?)`
and insert when absent, returning `lastrowid`. -/
def _upsert_supplier (supplierName : String) (db : CatalogDb) : Int × CatalogDb :=
  let n := pyStrip supplierName
  if n = "" then (0, db)
  else
    match db.suppliers.find? (fun r => pyLower r.name == pyLower n) with
    | some r => (r.id, db)
    | none =>
      (db.nextSupplierId,
       { db with
         suppliers := db.suppliers ++ [⟨db.nextSupplierId, n⟩],
         nextSupplierId := db.nextSupplierId + 1 })

/-- One CSV data row of a product import, after header resolution: the raw
`supplier`, `product_name` and `unit_pack_info` fields (a missing unit
column yields `""`). -/
structure CsvRow where
  supplier : String
  product_name : String
  unit_pack : String
  deriving DecidableEq

/-- `COALESCE(a, b, '')`. -/
def coalesce2 (a b : Option String) : String :=
  match a with
  | some v => v
  | none => match b with
    | some v => v
    | none => ""

/-- The per-import duplicate cache `existing_by_supplier`: supplier id to
the list of canonical pair keys seen for it. -/
abbrev ImportCache := List (Int × List String)

def cacheLookup (cache : ImportCache) (sid : Int) : Option (List String) :=
  (cache.find? (fun p => p.1 == sid)).map (fun p => p.2)

/-- The canonical pair keys of the products persisted for one supplier:
`_canon_pair(COALESCE(product_name, name, ''), COALESCE(unit_pack_info, ''))`. -/
def persistedKeys (db : CatalogDb) (sid : Int) : List String :=
  (db.products.filter (fun p => p.supplier_id == sid)).map
    (fun p => _canon_pair (coalesce2 p.product_name p.name) (p.unit_pack_info.getD ""))

/-- Embeds `_load_existing` (app.py:568): on first touch of a supplier,
seed its cache entry with the canonical pair keys of its persisted
products. -/
def loadExisting (db : CatalogDb) (cache : ImportCache) (sid : Int) : ImportCache :=
  match cacheLookup cache sid with
  | some _ => cache
  | none => (sid, persistedKeys db sid) :: cache

def cacheAdd (cache : ImportCache) (sid : Int) (key : String) : ImportCache :=
  cache.map (fun p => if p.1 == sid then (p.1, p.2 ++ [key]) else p)

/-- One iteration of the `products_upload` row loop (app.py:578-609),
threading the database, the import-local cache and the `added`/`skipped`
counters. -/
def uploadStep (st : CatalogDb × ImportCache × Nat × Nat) (r : CsvRow) :
    CatalogDb × ImportCache × Nat × Nat :=
  let (db, cache, added, skipped) := st
  let supplierName := pyStrip r.supplier
  let productName := pyStrip r.product_name
  let unitPack := pyStrip r.unit_pack
  if supplierName = "" ∨ productName = "" then (db, cache, added, skipped + 1)
  else
    let (sid, db1) := _upsert_supplier supplierName db
    if sid ≤ 0 then (db1, cache, added, skipped + 1)
    else
      let cache1 := loadExisting db1 cache sid
      let cand := _canon_pair productName unitPack
      if ((cacheLookup cache1 sid).getD []).contains cand then
        (db1, cache1, added, skipped + 1)
      else
        let row : ProductRow :=
          { id := db1.nextProductId, supplier_id := sid,
            product_name := some productName,
            unit_pack_info := if unitPack = "" then none else some unitPack,
            name := if db1.hasLegacyNameCol then some productName else none }
        ({ db1 with
           products := db1.products ++ [row],
           nextProductId := db1.nextProductId + 1 },
         cacheAdd cache1 sid cand, added + 1, skipped)

/-- Embeds the data loop of `products_upload` (app.py:564-613): fold the
rows through `uploadStep` starting from an empty import cache; returns the
new database and the `added`/`skipped` counts. -/
def products_upload (db : CatalogDb) (rows : List CsvRow) : CatalogDb × Nat × Nat :=
  let (db1, _, added, skipped) := rows.foldl uploadStep (db, [], 0, 0)
  (db1, added, skipped)

/-! ### Order ledger (app.py:631-960) -/

/-- One stored line item, as serialised into the `line_items` JSON column
by `orders_new`.  `product_id` is optional because the history view
synthesises a line with `"product_id": None` for legacy rows. -/
structure LineItem where
  supplier_id : Int
  product_id : Option Int
  qty : Int
  unit_price : ℚ
  amount : ℚ
  desc : Option String
  deriving DecidableEq

/-- One submitted order line after form parsing: `product_id` /
`supplier_id` are present when the raw field parsed as an integer
(`isdigit` / `int`), the numeric fields default to `0` when blank. -/
structure LineInput where
  supplier_id : Option Int
  product_id : Option Int
  qty : ℚ
  unit_price : ℚ
  amount : ℚ
  desc : Option String
  deriving DecidableEq

structure UserRow where
  id : Int
  username : String
  full_name : Option String
  deriving DecidableEq

/-- One row of the `orders` table, restricted to the columns `orders_new`
writes.  `rep` is the value of the `sales_rep_id`/`rep_id` column when the
schema has one; `line_items = none` models a legacy row whose JSON column
is null or unparsable; `total = none` models a null `total`. -/
structure OrderRow where
  id : Int
  order_no : String
  created_at : String
  total : Option ℚ
  rep : Option Int
  supplier_id : Option Int
  product_id : Option Int
  quantity : Option Int
  unit_price : Option ℚ
  payment_method : String
  status : String
  delivery_date : Option String
  currency : String
  notes : String
  customer_name : String
  customer_location : String
  line_items : Option (List LineItem)
  sales_rep_name : Option String
  deriving DecidableEq

/-- The order-ledger slice of the database.  The three `has…Col` flags
model `has_column(conn, "orders", …)` for the representative columns and
`sales_rep_name`. -/
structure OrdersDb where
  users : List UserRow
  products : List ProductRow
  orders : List OrderRow
  nextOrderId : Int
  hasSalesRepIdCol : Bool
  hasRepIdCol : Bool
  hasSalesRepNameCol : Bool
  deriving DecidableEq

def findProduct (prods : List ProductRow) (pid : Int) : Option ProductRow :=
  prods.find? (fun p => p.id == pid)

/-- Embeds the line-building loop of `orders_new` (app.py:667-699): drop a
line whose product id or truncated quantity is non-positive, infer a
missing supplier from the product, and derive a missing amount from
`round(unit_price * qty, 2)` when the unit price is positive. -/
def mkLines (prods : List ProductRow) (ins : List LineInput) : List LineItem :=
  ins.filterMap (fun li =>
    let pid := li.product_id.getD 0
    let sid0 := li.supplier_id.getD 0
    let sid :=
      if sid0 ≤ 0 then
        match findProduct prods pid with
        | some p => p.supplier_id
        | none => sid0
      else sid0
    let q := truncInt li.qty
    if pid ≤ 0 ∨ q ≤ 0 then none
    else
      let amt :=
        if li.amount ≤ 0 ∧ 0 < li.unit_price then round2 (li.unit_price * q) else li.amount
      some { supplier_id := sid, product_id := some pid, qty := q,
             unit_price := li.unit_price, amount := amt, desc := li.desc })

def pad4 (n : Nat) : String :=
  let s := toString n
  String.mk (List.replicate (4 - s.length) '0') ++ s

/-- Embeds `generate_order_no` (app.py:378): count the orders created on
the current calendar day and append the count plus one as a four-digit
ordinal. -/
def generate_order_no (orders : List OrderRow) (todayIso todayCompact : String) : String :=
  let seq := (orders.filter (fun o => o.created_at.take 10 == todayIso)).length + 1
  "ORD-" ++ todayCompact ++ "-" ++ pad4 seq

/-- The order form header, after HTTP form extraction: raw strings plus the
parsed manual total (`0` when the `amount` field is empty or unparsable)
and the parsed parallel line arrays, already zipped by position. -/
structure OrderForm where
  customer_name : String
  customer_location : String
  notes : String
  payment_method : String
  delivery_date : String
  currency : String
  sales_rep : String
  amount : ℚ
  lines : List LineInput
  deriving DecidableEq

/-- The user lookup by sales-rep text (app.py:726):
`lower(username) = lower(?) OR lower(COALESCE(full_name, '')) = lower(?)`. -/
def findRepByText (users : List UserRow) (txt : String) : Option UserRow :=
  users.find? (fun u =>
    pyLower u.username == pyLower txt || pyLower (u.full_name.getD "") == pyLower txt)

def findByUsername (users : List UserRow) (un : String) : Option UserRow :=
  users.find? (fun u => u.username == un)

/-- The representative resolution chain of `orders_new` (app.py:720-736):
the authenticated caller, else the user matching the sales-rep text, else
the `staff` account, else the `admin` account. -/
def resolveRep (db : OrdersDb) (caller : Option UserRow) (txt : String) : Option Int :=
  match caller with
  | some u => some u.id
  | none =>
    match (if txt ≠ "" then findRepByText db.users txt else none) with
    | some u => some u.id
    | none =>
      match findByUsername db.users "staff" with
      | some u => some u.id
      | none => (findByUsername db.users "admin").map (fun u => u.id)

/-- Embeds the POST branch of `orders_new` (app.py:636-769).  `caller` is
the session user (`current_user_row()`); `now` is the creation timestamp,
`todayIso`/`todayCompact` feed `generate_order_no`.  Returns `none` when
the handler flashes an error and redirects without inserting anything. -/
def orders_new (db : OrdersDb) (caller : Option UserRow) (f : OrderForm)
    (now todayIso todayCompact : String) : Option OrdersDb :=
  let customer_name := pyStrip f.customer_name
  let customer_location := pyStrip f.customer_location
  let notes := pyStrip f.notes
  let payment_method := if pyStrip f.payment_method = "" then "COD" else pyStrip f.payment_method
  let delivery_date := if pyStrip f.delivery_date = "" then none else some (pyStrip f.delivery_date)
  let currency := if pyStrip f.currency = "" then "KES" else pyStrip f.currency
  let sales_rep_text := pyStrip f.sales_rep
  let manual_total := f.amount
  let lines := mkLines db.products f.lines
  match lines with
  | [] => none
  | first :: _ =>
    let computed_total := round2 (lines.map (fun l => l.amount)).sum
    let total_to_save := if 0 < manual_total then manual_total else computed_total
    let header_supplier_id := if first.supplier_id = 0 then none else some first.supplier_id
    let order_no := generate_order_no db.orders todayIso todayCompact
    let repColPresent := db.hasSalesRepIdCol || db.hasRepIdCol
    let rep_val : Option Int :=
      if repColPresent then resolveRep db caller sales_rep_text else none
    if repColPresent ∧ rep_val = none then none
    else
      some { db with
        orders := db.orders ++ [{
          id := db.nextOrderId, order_no := order_no, created_at := now,
          total := some total_to_save,
          rep := rep_val,
          supplier_id := header_supplier_id, product_id := first.product_id,
          quantity := some first.qty, unit_price := some first.unit_price,
          payment_method := payment_method, status := "Pending",
          delivery_date := delivery_date, currency := currency, notes := notes,
          customer_name := customer_name, customer_location := customer_location,
          line_items := some lines,
          sales_rep_name := if db.hasSalesRepNameCol then some sales_rep_text else none }],
        nextOrderId := db.nextOrderId + 1 }

def statusAllowed (s : String) : Bool :=
  s == "Pending" || s == "Delivered" || s == "Cancelled"

/-- Embeds `orders_update_status` (app.py:944-958): title-case the
requested status, reject it (returning the rows unchanged and `false`)
unless it is one of Pending/Delivered/Cancelled, otherwise set it on the
matching order — additionally setting `delivery_date` to
`COALESCE(delivery_date, date('now'))` when delivering. -/
def orders_update_status (orders : List OrderRow) (orderId : Int)
    (formStatus today : String) : List OrderRow × Bool :=
  let new_status := pyTitle (pyStrip formStatus)
  if statusAllowed new_status then
    (orders.map (fun o =>
      if o.id == orderId then
        { o with
          status := new_status,
          delivery_date :=
            if new_status == "Delivered" then some (o.delivery_date.getD today)
            else o.delivery_date }
      else o), true)
  else (orders, false)

/-- The product label used by the list/history views (app.py:441, 877):
`name (unit_pack_info)`, trimmed. -/
def productLabel (p : ProductRow) : String :=
  let nm := coalesce2 p.product_name p.name
  let up := p.unit_pack_info.getD ""
  pyStrip (nm ++ (if up ≠ "" then " (" ++ up ++ ")" else ""))

structure HistoryItem where
  label : Option String
  qty : Int
  unit_price : ℚ
  amount : ℚ
  deriving DecidableEq

/-- The per-item amount used by the history view (app.py:919):
`float(it.get("amount") or (qty * upx))` — the stored amount unless it is
zero/absent, in which case `qty * unit_price` (unrounded). -/
def histAmt (l : LineItem) : ℚ :=
  if l.amount = 0 then (l.qty : ℚ) * l.unit_price else l.amount

def histItem (prods : List ProductRow) (l : LineItem) : HistoryItem :=
  let pid := l.product_id.getD 0
  { label :=
      if l.product_id ≠ none ∧ pid ≠ 0 then (findProduct prods pid).map productLabel
      else some (match l.desc with
        | some d => if d = "" then "Product" else d
        | none => "Product"),
    qty := l.qty, unit_price := l.unit_price, amount := histAmt l }

/-- One rendered row of the order-history view. -/
structure HistoryEntry where
  id : Int
  order_no : String
  created_at : String
  customer_name : String
  customer_location : String
  sales_rep : String
  currency : String
  items : List HistoryItem
  total : ℚ
  deriving DecidableEq

/-- Embeds the per-order projection of `orders_history` (app.py:893-937):
parse the stored line items (synthesising a single legacy line from the
header columns when empty), resolve labels, and recompute the displayed
total as `round(sum of item amounts, 2)`. -/
def orders_history_entry (prods : List ProductRow) (users : List UserRow)
    (h : OrderRow) : HistoryEntry :=
  let items_raw :=
    match h.line_items with
    | some l => l
    | none => []
  let items_raw : List LineItem :=
    match items_raw with
    | [] =>
      let qty := h.quantity.getD 0
      let upx := h.unit_price.getD 0
      [{ supplier_id := 0, product_id := none, qty := qty, unit_price := upx,
         amount :=
           match h.total with
           | some t => if t = 0 then (qty : ℚ) * upx else t
           | none => (qty : ℚ) * upx,
         desc := none }]
    | l => l
  let items := items_raw.map (histItem prods)
  let sales_rep_display :=
    let srn := pyStrip (h.sales_rep_name.getD "")
    if srn ≠ "" then srn
    else
      match h.rep with
      | some rid =>
        if rid = 0 then ""
        else
          match users.find? (fun u => u.id == rid) with
          | some u => u.full_name.getD u.username
          | none => ""
      | none => ""
  { id := h.id, order_no := h.order_no, created_at := h.created_at,
    customer_name := h.customer_name, customer_location := h.customer_location,
    sales_rep := sales_rep_display,
    currency := if h.currency = "" then "KES" else h.currency,
    items := items,
    total := round2 ((items_raw.map histAmt).sum) }

/-! ### Schema evolution engine (`ensure_schema`, app.py:85-242)

For the schema claims the store is modelled uniformly: a table is a
presence flag, a column-name list, and rows as association lists from
column name to an optional value (cell values are modelled as optional
strings — `ensure_schema` never computes on numeric cells).
`ALTER TABLE … ADD COLUMN` appends a cell holding the column's default
(`none` without a `DEFAULT` clause) to every existing row. -/

abbrev Cell := Option String

abbrev DbRow := List (String × Cell)

def rowGet (r : DbRow) (c : String) : Cell :=
  match r.find? (fun p => p.1 == c) with
  | some p => p.2
  | none => none

def rowSet (r : DbRow) (c : String) (v : Cell) : DbRow :=
  r.map (fun p => if p.1 == c then (p.1, v) else p)

structure DbTable where
  present : Bool
  cols : List String
  rows : List DbRow
  deriving DecidableEq

/-- `has_column` (app.py:80): case-insensitive column-name lookup. -/
def hasCol (t : DbTable) (c : String) : Bool :=
  t.cols.any (fun n => pyLower n == pyLower c)

/-- `CREATE TABLE IF NOT EXISTS`. -/
def createTableIfAbsent (t : DbTable) (baseline : List String) : DbTable :=
  if t.present then t else { present := true, cols := baseline, rows := [] }

/-- `ALTER TABLE … ADD COLUMN` guarded by `has_column`: append the column
and fill it with the default value `d` in every existing row. -/
def addColIfAbsent (t : DbTable) (c : String) (d : Cell) : DbTable :=
  if hasCol t c then t
  else { t with cols := t.cols ++ [c], rows := t.rows.map (fun r => r ++ [(c, d)]) }

/-- The whole persisted structure touched by `ensure_schema`, tables plus
the index flags for the three explicitly created indexes. -/
structure SchemaDb where
  users : DbTable
  suppliers : DbTable
  products : DbTable
  orders : DbTable
  rep_targets : DbTable
  supplier_targets : DbTable
  supplier_actuals : DbTable
  rep_actuals : DbTable
  idx_orders_order_no : Bool
  idx_supplier_targets_unique : Bool
  idx_rep_targets_unique : Bool
  deriving DecidableEq

/-- The products migration block (app.py:126-138): add `product_name` when
absent and backfill it from the legacy `name` column, but only where it is
null or empty (`SET product_name = COALESCE(product_name, name) WHERE
product_name IS NULL OR product_name = ''`); then add `unit_pack_info` and
`supplier_id` when absent. -/
def migrateProducts (t : DbTable) : DbTable :=
  if t.present then
    let t1 :=
      if hasCol t "product_name" then t
      else
        let t2 := addColIfAbsent t "product_name" none
        if hasCol t2 "name" then
          { t2 with rows := t2.rows.map (fun r =>
              if rowGet r "product_name" = none ∨ rowGet r "product_name" = some "" then
                rowSet r "product_name"
                  (match rowGet r "product_name" with
                   | some v => some v
                   | none => rowGet r "name")
              else r) }
        else t2
    let t1 := addColIfAbsent t1 "unit_pack_info" none
    addColIfAbsent t1 "supplier_id" none
  else t

/-- A sequence of guarded `ALTER TABLE … ADD COLUMN` statements. -/
def addColsIfAbsent (t : DbTable) (cs : List (String × Cell)) : DbTable :=
  cs.foldl (fun t p => addColIfAbsent t p.1 p.2) t

/-- The columns added to `orders` before the `order_no` block
(app.py:149-160). -/
def ordersColsA : List (String × Cell) :=
  [("created_at", none), ("total", none), ("supplier_id", none), ("product_id", none),
   ("quantity", none), ("notes", none)]

/-- The columns added to `orders` after the `order_no` block
(app.py:165-182).  `status` and `currency` carry SQLite defaults, which
`ADD COLUMN` applies to pre-existing rows. -/
def ordersColsB : List (String × Cell) :=
  [("unit_price", none), ("payment_method", none), ("status", some "Pending"),
   ("delivery_date", none), ("currency", some "KES"), ("customer_name", none),
   ("customer_location", none), ("line_items", none), ("sales_rep_name", none)]

/-- The orders migration block (app.py:141-182).  Returns the migrated
table together with the `idx_orders_order_no` flag: the unique index is
created only in the branch that adds the `order_no` column. -/
def migrateOrders (t : DbTable) (idx : Bool) : DbTable × Bool :=
  let t :=
    if t.present then t
    else { present := true, cols := ["id", "created_at", "total"], rows := [] }
  let t := addColsIfAbsent t ordersColsA
  let hadOrderNo := hasCol t "order_no"
  let t := addColIfAbsent t "order_no" none
  let idx := if hadOrderNo then idx else true
  let t := addColsIfAbsent t ordersColsB
  (t, idx)

/-- The seeding step for one baseline account (app.py:231-242): insert the
row unless a row with that username exists. -/
def seedUser (t : DbTable) (un pwHash role nowTs fullName : String) : DbTable :=
  if t.rows.any (fun r => rowGet r "username" == some un) then t
  else
    { t with rows := t.rows ++
        [[("username", some un), ("password_hash", some pwHash), ("role", some role),
          ("created_at", some nowTs), ("full_name", some fullName)]] }

/-- Embeds `ensure_schema` (app.py:85-242).  `nowTs` is the seeding
timestamp, `adminHash`/`staffHash` the salted password hashes produced by
`generate_password_hash` (nondeterministic, hence parameters). -/
def ensure_schema (nowTs adminHash staffHash : String) (db : SchemaDb) : SchemaDb :=
  let users := createTableIfAbsent db.users
    ["id", "username", "password_hash", "role", "created_at", "full_name"]
  let suppliers := createTableIfAbsent db.suppliers ["id", "name"]
  let products := createTableIfAbsent db.products
    ["id", "supplier_id", "product_name", "unit_pack_info"]
  let products := addColIfAbsent products "name" none
  let products := migrateProducts products
  let (orders, idxOrderNo) := migrateOrders db.orders db.idx_orders_order_no
  let rep_targets := createTableIfAbsent db.rep_targets
    ["id", "rep_id", "month", "year", "target_value"]
  let supplier_targets := createTableIfAbsent db.supplier_targets
    ["id", "supplier_id", "month", "year", "target_value"]
  let supplier_actuals := createTableIfAbsent db.supplier_actuals
    ["id", "supplier_id", "month", "year", "mtd_value"]
  let rep_actuals := createTableIfAbsent db.rep_actuals
    ["id", "rep_id", "month", "year", "mtd_value"]
  let users := seedUser users "admin" adminHash "admin" nowTs "Administrator"
  let users := seedUser users "staff" staffHash "rep" nowTs "Staff"
  { users := users, suppliers := suppliers, products := products, orders := orders,
    rep_targets := rep_targets, supplier_targets := supplier_targets,
    supplier_actuals := supplier_actuals, rep_actuals := rep_actuals,
    idx_orders_order_no := idxOrderNo,
    idx_supplier_targets_unique := true,
    idx_rep_targets_unique := true }

/-! ### Helper lemmas on the string primitives -/

theorem replaceF_of_not_occurs (pat rep : List Char) (fuel : Nat) :
    ∀ s : List Char, occurs pat s = false → replaceF pat rep fuel s = s := by
  induction fuel with
  | zero => intro s _; rfl
  | succ n ih =>
    intro s h
    cases s with
    | nil => rfl
    | cons c rest =>
      rw [occurs, Bool.or_eq_false_iff] at h
      simp only [replaceF, h.1, Bool.and_false, if_neg Bool.false_ne_true]
      rw [ih rest h.2]

theorem replaceL_of_not_occurs (pat rep : List Char) (s : List Char)
    (h : occurs pat s = false) : replaceL pat rep s = s :=
  replaceF_of_not_occurs pat rep s.length s h

theorem collapseSpacesF_of_not_occurs (fuel : Nat) (s : List Char)
    (h : occurs spc2 s = false) : collapseSpacesF fuel s = s := by
  cases fuel <;> simp [collapseSpacesF, h]

theorem collapseSpaces_of_not_occurs (s : List Char) (h : occurs spc2 s = false) :
    collapseSpaces s = s :=
  collapseSpacesF_of_not_occurs s.length s h

/-- The trigger-freeness condition under which every stage of the `_canon`
pipeline leaves a string unchanged: already stripped and lower-case, no
multiplication sign, no double space, no space adjacent to an `x`, none of
the unit substrings the pipeline rewrites, and no foldable trailing
`" z"`/`" v"`. -/
def canonStable (c : List Char) : Prop :=
  stripL c = c ∧ lowerL c = c ∧
  occurs ['×'] c = false ∧
  occurs spc2 c = false ∧
  occurs [' ', 'x', ' '] c = false ∧ occurs [' ', 'x'] c = false ∧
  occurs ['x', ' '] c = false ∧
  occurs ['p', 'k', 't'] c = false ∧ occurs ['p', 'k', 't', 's'] c = false ∧
  occurs [' ', 'g', 'm', 's'] c = false ∧ occurs [' ', 'g', 'm'] c = false ∧
  occurs ['g', 'm', 's'] c = false ∧ occurs ['g', 'm'] c = false ∧
  occurs [' ', 'k', 'g', 's'] c = false ∧ occurs ['k', 'g', 's'] c = false ∧
  occurs [' ', 'm', 'l', 's'] c = false ∧ occurs ['m', 'l', 's'] c = false ∧
  [' ', 'z'].isSuffixOf c = false ∧ [' ', 'v'].isSuffixOf c = false

instance (c : List Char) : Decidable (canonStable c) := by
  unfold canonStable; infer_instance

theorem canon_list_fixed (c : List Char) (h : canonStable c) : _canon_list c = c := by
  obtain ⟨hstrip, hlower, h1, hdd, hx1, hx2, hx3, hp1, hp2, hg1, hg2, hg3, hg4,
    hk1, hk2, hm1, hm2, hz, hv⟩ := h
  cases c with
  | nil => rfl
  | cons a rest =>
    show _canon_list (a :: rest) = a :: rest
    rw [_canon_list]
    simp only [List.isEmpty_cons, if_neg Bool.false_ne_true]
    rw [hstrip, hlower,
      replaceL_of_not_occurs _ _ _ h1,
      collapseSpaces_of_not_occurs _ hdd,
      replaceL_of_not_occurs _ _ _ hx1,
      replaceL_of_not_occurs _ _ _ hx2,
      replaceL_of_not_occurs _ _ _ hx3,
      replaceL_of_not_occurs _ _ _ hp1,
      replaceL_of_not_occurs _ _ _ hp2,
      replaceL_of_not_occurs _ _ _ hg1,
      replaceL_of_not_occurs _ _ _ hg2,
      replaceL_of_not_occurs _ _ _ hg3,
      replaceL_of_not_occurs _ _ _ hg4,
      replaceL_of_not_occurs _ _ _ hk1,
      replaceL_of_not_occurs _ _ _ hk2,
      replaceL_of_not_occurs _ _ _ hm1,
      replaceL_of_not_occurs _ _ _ hm2,
      replaceL_of_not_occurs _ _ _ hdd]
    simp only [hz, hv, if_neg Bool.false_ne_true]

/-! ### C2 — idempotence of the canonicalization function -/

/-- C2, counterexample: the claim "`canonicalize(canonicalize(x)) ==
canonicalize(x)` for every text input" fails at `x = "gmm"`: the single
`replace("gm", "g")` pass maps `"gmm"` to `"gm"`, which a second
application folds further to `"g"`. -/
theorem canon_not_idempotent_cex : _canon (_canon "gmm") ≠ _canon "gmm" := by decide

/-- C2, amended: `_canon` is idempotent on every input whose canonical
form is free of the pipeline's rewrite triggers (`canonStable`) — the
counterexample `"gmm"` shows idempotence fails when a rewritable unit
substring survives into the output. -/
theorem canon_idempotent_of_stable (x : String)
    (h : canonStable (_canon x).data) : _canon (_canon x) = _canon x := by
  show String.mk (_canon_list (_canon x).data) = _canon x
  rw [canon_list_fixed _ h]

/-- C2, witness for the amended theorem at `x = "abc"`. -/
theorem canon_idempotent_of_stable_witness :
    canonStable (_canon "abc").data ∧ _canon (_canon "abc") = _canon "abc" :=
  ⟨by decide, canon_idempotent_of_stable "abc" (by decide)⟩

/-! ### C3 — unit-synonym normalization -/

/-- C3: the code evaluated at the failing input `"72pkts"`.  Because
`replace("pkt", "pk")` runs before `replace("pkts", "pk")`, the suffix
`"pkts"` becomes `"pks"`, never `"pk"` — contradicting the function's own
docstring ("normalize units: pkt/pkts -> pk") and the claimed
`canonicalize("72pkts") == canonicalize("72pk")`. -/
theorem canon_pkts_divergence :
    _canon "72pkts" = "72pks" ∧ _canon "72pk" = "72pk" ∧
    _canon "72pkts" ≠ _canon "72pk" ∧
    _canon "pkt" = "pk" ∧ _canon "5 gms" = "5 g" ∧ _canon "5gms" = "5g" ∧
    _canon "5 gm" = "5 g" ∧ _canon "5gm" = "5g" ∧ _canon "5kgs" = "5kg" ∧
    _canon "5mls" = "5ml" := by decide

/-! ### Helper lemmas on `_upsert_supplier` -/

theorem pyLower_eq_empty_iff (s : String) : pyLower s = "" ↔ s = "" := by
  constructor
  · intro h
    have : (pyLower s).data = [] := by rw [h]
    have hd : s.data.map lowerChar = [] := this
    cases s with
    | mk l => cases l with
      | nil => rfl
      | cons a t => simp at hd
  · intro h; rw [h]; rfl

/-- After an upsert with a non-empty trimmed name, looking the same
canonical name up again finds a row carrying the returned id. -/
theorem upsert_find_self (db : CatalogDb) (n : String) (h : pyStrip n ≠ "") :
    ∃ r : SupplierRow,
      ((_upsert_supplier n db).2).suppliers.find?
        (fun r => pyLower r.name == pyLower (pyStrip n)) = some r ∧
      r.id = (_upsert_supplier n db).1 := by
  cases hfind : db.suppliers.find? (fun r => pyLower r.name == pyLower (pyStrip n)) with
  | some r =>
    refine ⟨r, ?_, ?_⟩ <;> simp [_upsert_supplier, if_neg h, hfind]
  | none =>
    refine ⟨⟨db.nextSupplierId, pyStrip n⟩, ?_, ?_⟩ <;>
      simp [_upsert_supplier, if_neg h, hfind, List.find?_append]

/-- Re-upserting a name whose trimmed/lower-cased form matches a previous
upsert, against any database with the same supplier list, returns the same
id and leaves the database unchanged. -/
theorem upsert_stable (n : String) (db db' : CatalogDb) (h : pyStrip n ≠ "")
    (hs : db'.suppliers = ((_upsert_supplier n db).2).suppliers) :
    _upsert_supplier n db' = ((_upsert_supplier n db).1, db') := by
  obtain ⟨r, hfind, hid⟩ := upsert_find_self db n h
  rw [← hs] at hfind
  simp [_upsert_supplier, if_neg h, hfind, hid]

/-- When the canonical lookup succeeds, `_upsert_supplier` returns the
found row's id with the database unchanged. -/
theorem upsert_of_find (n : String) (db : CatalogDb) (r : SupplierRow)
    (hne : pyStrip n ≠ "")
    (hfind : db.suppliers.find? (fun q => pyLower q.name == pyLower (pyStrip n)) = some r) :
    _upsert_supplier n db = (r.id, db) := by
  simp [_upsert_supplier, if_neg hne, hfind]

theorem upsert_products_eq (n : String) (db : CatalogDb) :
    ((_upsert_supplier n db).2).products = db.products ∧
    ((_upsert_supplier n db).2).nextProductId = db.nextProductId ∧
    ((_upsert_supplier n db).2).hasLegacyNameCol = db.hasLegacyNameCol := by
  unfold _upsert_supplier
  by_cases h : pyStrip n = ""
  · simp [h]
  · cases hfind : db.suppliers.find? (fun r => pyLower r.name == pyLower (pyStrip n)) <;>
      simp [h, hfind]

/-! ### C5 — supplier upsert by case/space-insensitive name -/

def acmeDb : CatalogDb :=
  { suppliers := [], nextSupplierId := 1, products := [], nextProductId := 1,
    hasLegacyNameCol := true }

/-- C5, counterexample: two supplier names differing only in whitespace do
not resolve to the same id.  The lookup is `lower(name) = lower(?)` over
the trimmed name — internal spacing stays significant — so `"Acme Ltd"`
and `"Acme  Ltd"` (double internal space) create two distinct suppliers
with ids 1 and 2. -/
theorem upsert_supplier_whitespace_cex :
    ("Acme Ltd").data.filter (fun c => !wsChar c) =
      ("Acme  Ltd").data.filter (fun c => !wsChar c) ∧
    (_upsert_supplier "Acme Ltd" acmeDb).1 = 1 ∧
    (_upsert_supplier "Acme  Ltd" (_upsert_supplier "Acme Ltd" acmeDb).2).1 = 2 := by
  decide

/-- C5, amended: `_upsert_supplier` returns the sentinel `0` without
inserting when the trimmed name is empty, and names agreeing after
trimming and ASCII lower-casing (case or leading/trailing-whitespace
variants, not internal-whitespace variants) resolve to the same id. -/
theorem upsert_supplier_case_insensitive (db : CatalogDb) (n n' : String) :
    (pyStrip n = "" → _upsert_supplier n db = (0, db)) ∧
    (pyStrip n ≠ "" → pyLower (pyStrip n') = pyLower (pyStrip n) →
      (_upsert_supplier n' (_upsert_supplier n db).2).1 = (_upsert_supplier n db).1) := by
  constructor
  · intro h; simp [_upsert_supplier, h]
  · intro hne heq
    have hne' : pyStrip n' ≠ "" := by
      intro h0
      rw [h0] at heq
      exact hne ((pyLower_eq_empty_iff _).mp heq.symm)
    obtain ⟨r, hfind, hid⟩ := upsert_find_self db n hne
    have hfind' :
        ((_upsert_supplier n db).2).suppliers.find?
          (fun q => pyLower q.name == pyLower (pyStrip n')) = some r := by
      have hpred :
          (fun q : SupplierRow => pyLower q.name == pyLower (pyStrip n')) =
          (fun q : SupplierRow => pyLower q.name == pyLower (pyStrip n)) := by
        funext q; rw [heq]
      rw [hpred]; exact hfind
    rw [upsert_of_find n' _ r hne' hfind', hid]

/-- C5, witness for the amended theorem: upserting `" acme LTD "` after
`"Acme Ltd"` returns the id of the row the first call created. -/
theorem upsert_supplier_case_insensitive_witness :
    pyStrip "Acme Ltd" ≠ "" ∧
    pyLower (pyStrip " acme LTD ") = pyLower (pyStrip "Acme Ltd") ∧
    (_upsert_supplier " acme LTD " (_upsert_supplier "Acme Ltd" acmeDb).2).1 =
      (_upsert_supplier "Acme Ltd" acmeDb).1 :=
  ⟨by decide, by decide,
    (upsert_supplier_case_insensitive acmeDb "Acme Ltd" " acme LTD ").2
      (by decide) (by decide)⟩

/-! ### Helper lemmas on the import fold -/

/-- One upload step changes the counters additively: the database/cache
outcome and the counter deltas do not depend on the incoming counters. -/
theorem uploadStep_decomp (db : CatalogDb) (cache : ImportCache) (a s : Nat) (r : CsvRow) :
    uploadStep (db, cache, a, s) r =
      ((uploadStep (db, cache, 0, 0) r).1,
       (uploadStep (db, cache, 0, 0) r).2.1,
       a + (uploadStep (db, cache, 0, 0) r).2.2.1,
       s + (uploadStep (db, cache, 0, 0) r).2.2.2) := by
  unfold uploadStep
  by_cases h1 : pyStrip r.supplier = "" ∨ pyStrip r.product_name = ""
  · simp [h1]
  · simp only [if_neg h1]
    rcases hup : _upsert_supplier (pyStrip r.supplier) db with ⟨sid, db1⟩
    by_cases h2 : sid ≤ 0
    · simp [h2]
    · simp only [if_neg h2]
      by_cases h3 :
          _canon_pair (pyStrip r.product_name) (pyStrip r.unit_pack) ∈
            (cacheLookup (loadExisting db1 cache sid) sid).getD []
      · simp [h3]
      · simp [h3]

theorem uploadFold_decomp (rows : List CsvRow) :
    ∀ (db : CatalogDb) (cache : ImportCache) (a s : Nat),
      rows.foldl uploadStep (db, cache, a, s) =
        ((rows.foldl uploadStep (db, cache, 0, 0)).1,
         (rows.foldl uploadStep (db, cache, 0, 0)).2.1,
         a + (rows.foldl uploadStep (db, cache, 0, 0)).2.2.1,
         s + (rows.foldl uploadStep (db, cache, 0, 0)).2.2.2) := by
  induction rows with
  | nil => intros; simp
  | cons r t ih =>
    intro db cache a s
    simp only [List.foldl_cons]
    rw [uploadStep_decomp db cache a s r]
    rcases h : uploadStep (db, cache, 0, 0) r with ⟨d1, c1, a1, s1⟩
    simp only
    rw [ih d1 c1 (a + a1) (s + s1), ih d1 c1 a1 s1]
    simp [Nat.add_assoc]

/-! ### C7 — handling of rows with missing supplier or product name -/

def c7db : CatalogDb :=
  { suppliers := [⟨1, "s"⟩], nextSupplierId := 2,
    products := [⟨1, 1, some "p", none, some "p"⟩], nextProductId := 2,
    hasLegacyNameCol := true }

/-- C7, counterexample: a missing-name skip is *not* counted separately
from a duplicate-skip — both bump the same `skipped` counter, so importing
a row with an empty product name produces exactly the same output
(database and `(added, skipped)` counts) as importing a duplicate row. -/
theorem upload_skip_counter_cex :
    products_upload c7db [⟨"s", "", ""⟩] = products_upload c7db [⟨"s", "p", ""⟩] ∧
    products_upload c7db [⟨"s", "", ""⟩] = (c7db, 0, 1) := by decide

/-- C7, amended: a row missing the supplier name or the product name is
skipped before any supplier/product mutation, but it is counted in the
same single `skipped` counter that also counts duplicate-skips; the
operation reports two counts, `inserted` and the combined `skipped`. -/
theorem products_upload_missing_fields (db : CatalogDb) (r : CsvRow) (rows : List CsvRow)
    (h : pyStrip r.supplier = "" ∨ pyStrip r.product_name = "") :
    products_upload db (r :: rows) =
      ((products_upload db rows).1, (products_upload db rows).2.1,
       (products_upload db rows).2.2 + 1) := by
  unfold products_upload
  simp only [List.foldl_cons]
  have hstep : uploadStep (db, [], 0, 0) r = (db, [], 0, 1) := by
    unfold uploadStep; simp [h]
  rw [hstep, uploadFold_decomp rows db [] 0 1]
  rcases hfold : rows.foldl uploadStep (db, ([] : ImportCache), 0, 0) with ⟨d, c, a, s⟩
  simp [Nat.add_comm]

/-- C7, witness for the amended theorem: a row with empty supplier name on
top of an empty batch yields `(added, skipped) = (0, 1)` with the store
untouched. -/
theorem products_upload_missing_fields_witness :
    (pyStrip "" = "" ∨ pyStrip "p" = "") ∧
    products_upload c7db [⟨"", "p", ""⟩] =
      ((products_upload c7db []).1, (products_upload c7db []).2.1,
       (products_upload c7db []).2.2 + 1) :=
  ⟨Or.inl rfl, products_upload_missing_fields c7db ⟨"", "p", ""⟩ [] (Or.inl rfl)⟩

/-! ### C6 — duplicate suppression by canonical (name + pack) key -/

/-- If a list is front-stripped, back-stripping keeps it front-stripped
(the back-strip result is a prefix, hence has the same head). -/
theorem dropWhile_rdropWhile (p : Char → Bool) (l : List Char)
    (h : List.dropWhile p l = l) :
    List.dropWhile p (List.rdropWhile p l) = List.rdropWhile p l := by
  obtain ⟨t, ht⟩ := List.rdropWhile_prefix p l
  cases hm : List.rdropWhile p l with
  | nil => simp
  | cons a u =>
    rw [hm] at ht
    have hl : l = a :: (u ++ t) := by rw [← ht]; simp
    rw [hl, List.dropWhile_cons] at h
    by_cases hpa : p a
    · exfalso
      rw [if_pos hpa] at h
      have hlen := congrArg List.length h
      have hle : (List.dropWhile p (u ++ t)).length ≤ (u ++ t).length :=
        (List.dropWhile_suffix p).length_le
      simp only [List.length_cons] at hlen
      omega
    · rw [List.dropWhile_cons, if_neg hpa]

theorem stripL_idem (l : List Char) : stripL (stripL l) = stripL l := by
  have h0 : List.dropWhile wsChar (List.dropWhile wsChar l) = List.dropWhile wsChar l :=
    List.dropWhile_idempotent wsChar l
  have hself : List.dropWhile wsChar (stripL l) = stripL l :=
    dropWhile_rdropWhile wsChar (List.dropWhile wsChar l) h0
  show ((List.dropWhile wsChar (stripL l)).reverse.dropWhile wsChar).reverse = stripL l
  rw [hself]
  show List.rdropWhile wsChar (List.rdropWhile wsChar (l.dropWhile wsChar)) =
    List.rdropWhile wsChar (l.dropWhile wsChar)
  exact List.rdropWhile_idempotent wsChar _

theorem pyStrip_idem (s : String) : pyStrip (pyStrip s) = pyStrip s := by
  show String.mk (stripL (stripL s.data)) = String.mk (stripL s.data)
  rw [stripL_idem]

theorem upsert_id_pos (db : CatalogDb) (n : String)
    (hwf1 : 0 < db.nextSupplierId) (hwf2 : ∀ q ∈ db.suppliers, 0 < q.id)
    (h : pyStrip n ≠ "") : 0 < (_upsert_supplier n db).1 := by
  unfold _upsert_supplier
  simp only [if_neg h]
  cases hfind : db.suppliers.find? (fun r => pyLower r.name == pyLower (pyStrip n)) with
  | some r =>
    simp only [hfind]
    exact hwf2 r (List.mem_of_find?_eq_some hfind)
  | none => simpa [hfind] using hwf1

/-- C6: importing the identical `(supplier, product, pack)` row twice in
one pass yields `inserted = 1, skipped = 1`; importing it in a second pass
over the already-imported data yields `(1, 0)` then `(0, 1)`, with the
second pass leaving the store unchanged.  Hypotheses: well-formed id
counters, non-empty trimmed supplier and product names, and the canonical
pair key not already persisted for the resolved supplier. -/
theorem products_upload_dedup (db : CatalogDb) (r : CsvRow)
    (hwf1 : 0 < db.nextSupplierId) (hwf2 : ∀ q ∈ db.suppliers, 0 < q.id)
    (hs : pyStrip r.supplier ≠ "") (hp : pyStrip r.product_name ≠ "")
    (hfresh : _canon_pair (pyStrip r.product_name) (pyStrip r.unit_pack) ∉
      persistedKeys db (_upsert_supplier (pyStrip r.supplier) db).1) :
    (products_upload db [r, r]).2.1 = 1 ∧ (products_upload db [r, r]).2.2 = 1 ∧
    (products_upload db [r]).2.1 = 1 ∧ (products_upload db [r]).2.2 = 0 ∧
    (products_upload (products_upload db [r]).1 [r]).2.1 = 0 ∧
    (products_upload (products_upload db [r]).1 [r]).2.2 = 1 ∧
    (products_upload (products_upload db [r]).1 [r]).1 = (products_upload db [r]).1 := by
  have hss : pyStrip (pyStrip r.supplier) ≠ "" := by rw [pyStrip_idem]; exact hs
  have hsid0 : 0 < (_upsert_supplier (pyStrip r.supplier) db).1 :=
    upsert_id_pos db (pyStrip r.supplier) hwf1 hwf2 hss
  have hprod0 := upsert_products_eq (pyStrip r.supplier) db
  rcases hup : _upsert_supplier (pyStrip r.supplier) db with ⟨sid, db1⟩
  rw [hup] at hsid0 hprod0 hfresh
  obtain ⟨hprods1, -, -⟩ := hprod0
  have hfresh1 : _canon_pair (pyStrip r.product_name) (pyStrip r.unit_pack) ∉
      persistedKeys db1 sid := by
    unfold persistedKeys
    rw [hprods1]
    exact hfresh
  have hcond : ¬(pyStrip r.supplier = "" ∨ pyStrip r.product_name = "") := not_or.mpr ⟨hs, hp⟩
  have hnle : ¬ sid ≤ 0 := not_le.mpr hsid0
  -- first step: the row is inserted
  have hstep1 : ∃ db2 : CatalogDb,
      uploadStep (db, [], 0, 0) r =
        (db2,
         [(sid, persistedKeys db1 sid ++
            [_canon_pair (pyStrip r.product_name) (pyStrip r.unit_pack)])],
         1, 0) ∧
      db2.suppliers = db1.suppliers ∧
      db2.products = db1.products ++
        [{ id := db1.nextProductId, supplier_id := sid,
           product_name := some (pyStrip r.product_name),
           unit_pack_info :=
             if pyStrip r.unit_pack = "" then none else some (pyStrip r.unit_pack),
           name := if db1.hasLegacyNameCol then some (pyStrip r.product_name) else none }] := by
    refine ⟨{ db1 with
        products := db1.products ++
          [{ id := db1.nextProductId, supplier_id := sid,
             product_name := some (pyStrip r.product_name),
             unit_pack_info :=
               if pyStrip r.unit_pack = "" then none else some (pyStrip r.unit_pack),
             name := if db1.hasLegacyNameCol then some (pyStrip r.product_name) else none }],
        nextProductId := db1.nextProductId + 1 }, ?_, rfl, rfl⟩
    unfold uploadStep
    simp only [if_neg hcond]
    rw [hup]
    simp [hnle, loadExisting, cacheLookup, cacheAdd, hfresh1]
  obtain ⟨db2, hstep1, hsup2, hprods2⟩ := hstep1
  have hup2 : _upsert_supplier (pyStrip r.supplier) db2 = (sid, db2) := by
    have h := upsert_stable (pyStrip r.supplier) db db2 hss (by rw [hup]; exact hsup2)
    rw [hup] at h
    exact h
  have hstep2 :
      uploadStep (db2,
        [(sid, persistedKeys db1 sid ++
           [_canon_pair (pyStrip r.product_name) (pyStrip r.unit_pack)])], 1, 0) r =
      (db2,
       [(sid, persistedKeys db1 sid ++
          [_canon_pair (pyStrip r.product_name) (pyStrip r.unit_pack)])],
       1, 1) := by
    unfold uploadStep
    simp only [if_neg hcond]
    rw [hup2]
    simp [hnle, loadExisting, cacheLookup]
  have hA : products_upload db [r, r] = (db2, 1, 1) := by
    unfold products_upload
    simp only [List.foldl_cons, List.foldl_nil]
    rw [hstep1, hstep2]
  have hB : products_upload db [r] = (db2, 1, 0) := by
    unfold products_upload
    simp only [List.foldl_cons, List.foldl_nil]
    rw [hstep1]
  have hpk2 : persistedKeys db2 sid = persistedKeys db1 sid ++
      [_canon_pair (pyStrip r.product_name) (pyStrip r.unit_pack)] := by
    unfold persistedKeys
    rw [hprods2, List.filter_append, List.map_append]
    congr 1
    by_cases hu : pyStrip r.unit_pack = "" <;> simp [hu, coalesce2]
  have hstep3 : uploadStep (db2, [], 0, 0) r =
      (db2, [(sid, persistedKeys db2 sid)], 0, 1) := by
    unfold uploadStep
    simp only [if_neg hcond]
    rw [hup2]
    have hmem : _canon_pair (pyStrip r.product_name) (pyStrip r.unit_pack) ∈
        persistedKeys db2 sid := by
      rw [hpk2]
      simp
    simp [hnle, loadExisting, cacheLookup, hmem]
  have hC : products_upload db2 [r] = (db2, 0, 1) := by
    unfold products_upload
    simp only [List.foldl_cons, List.foldl_nil]
    rw [hstep3]
  simp [hA, hB, hC]

/-- C6, witness at the empty catalog and the row `("s", "p", "")`. -/
theorem products_upload_dedup_witness :
    pyStrip "s" ≠ "" ∧
    (_canon_pair (pyStrip "p") (pyStrip "") ∉
      persistedKeys acmeDb (_upsert_supplier (pyStrip "s") acmeDb).1) ∧
    (products_upload acmeDb [⟨"s", "p", ""⟩, ⟨"s", "p", ""⟩]).2.1 = 1 ∧
    (products_upload acmeDb [⟨"s", "p", ""⟩, ⟨"s", "p", ""⟩]).2.2 = 1 :=
  ⟨by decide, by decide,
   (products_upload_dedup acmeDb ⟨"s", "p", ""⟩ (by decide) (by decide) (by decide)
      (by decide) (by decide)).1,
   (products_upload_dedup acmeDb ⟨"s", "p", ""⟩ (by decide) (by decide) (by decide)
      (by decide) (by decide)).2.1⟩

/-! ### C1 — stored order total: override precedence over line sum -/

def exDb : OrdersDb :=
  { users := [], products := [⟨1, 7, some "A", none, none⟩, ⟨2, 7, some "B", none, none⟩],
    orders := [], nextOrderId := 1,
    hasSalesRepIdCol := false, hasRepIdCol := false, hasSalesRepNameCol := false }

/-- The spec's example submission: lines `(qty 2, unit price 100)` and
`(qty 1, unit price 50)` with no per-line amounts, and a manual total
override of `manual` (0 models the empty override field). -/
def exForm (manual : ℚ) : OrderForm :=
  { customer_name := "", customer_location := "", notes := "", payment_method := "",
    delivery_date := "", currency := "", sales_rep := "", amount := manual,
    lines := [⟨none, some 1, 2, 100, 0, none⟩, ⟨none, some 2, 1, 50, 0, none⟩] }

/-- Evaluation of the line-building loop at the example submission: the
amounts are derived as `round(unit_price * qty, 2)` and the suppliers
inferred from the products. -/
theorem mkLines_exLines :
    mkLines [⟨1, 7, some "A", none, none⟩, ⟨2, 7, some "B", none, none⟩]
      [⟨none, some 1, 2, 100, 0, none⟩, ⟨none, some 2, 1, 50, 0, none⟩] =
      [⟨7, some 1, 2, 100, 200, none⟩, ⟨7, some 2, 1, 50, 50, none⟩] := by
  norm_num [mkLines, findProduct, truncInt, round2, roundHalfEven,
    List.filterMap_cons, List.filterMap_nil, List.find?, beq_self_eq_true,
    (by decide : (((1 : Int) == 2) : Bool) = false)]

/-- C1: for every successful order creation, the stored total is the
positive manual override when one is given, else the two-decimal rounding
of the line-amount sum; at the spec's example lines the stored total is
250 with no override and 300 with override 300, while the line-amount sum
stays 250 in both cases. -/
theorem orders_new_total_spec :
    (∀ (db : OrdersDb) (caller : Option UserRow) (f : OrderForm) (now ti tc : String)
       (db' : OrdersDb),
       orders_new db caller f now ti tc = some db' →
       db'.orders.map (fun o => o.total) =
         db.orders.map (fun o => o.total) ++
           [some (if 0 < f.amount then f.amount
                  else round2 (((mkLines db.products f.lines).map (fun l => l.amount)).sum))]) ∧
    ((orders_new exDb none (exForm 0) "T" "D" "C").map fun d =>
        d.orders.map fun o => o.total) = some [some 250] ∧
    ((mkLines exDb.products (exForm 0).lines).map (fun l => l.amount)).sum = 250 ∧
    ((orders_new exDb none (exForm 300) "T" "D" "C").map fun d =>
        d.orders.map fun o => o.total) = some [some 300] ∧
    ((mkLines exDb.products (exForm 300).lines).map (fun l => l.amount)).sum = 250 := by
  refine ⟨?_, ?_, ?_, ?_, ?_⟩
  · intro db caller f now ti tc db' h
    unfold orders_new at h
    cases hml : mkLines db.products f.lines with
    | nil => rw [hml] at h; simp at h
    | cons first rest =>
      rw [hml] at h
      dsimp only [] at h
      by_cases hc : ((db.hasSalesRepIdCol || db.hasRepIdCol) = true ∧
          (if (db.hasSalesRepIdCol || db.hasRepIdCol) = true
           then resolveRep db caller (pyStrip f.sales_rep) else none) = none)
      · rw [if_pos hc] at h
        exact absurd h (by simp)
      · rw [if_neg hc] at h
        injection h with h
        subst h
        simp
  · norm_num [orders_new, exDb, exForm, mkLines_exLines, round2, roundHalfEven]
  · norm_num [exDb, exForm, mkLines_exLines]
  · norm_num [orders_new, exDb, exForm, mkLines_exLines, round2, roundHalfEven]
  · norm_num [exDb, exForm, mkLines_exLines]

/-- C1, witness for the universal conjunct, instantiated at the example
database and the override-300 form. -/
theorem orders_new_total_spec_witness :
    ∃ db' : OrdersDb,
      orders_new exDb none (exForm 300) "T" "D" "C" = some db' ∧
      db'.orders.map (fun o => o.total) =
        exDb.orders.map (fun o => o.total) ++
          [some (if 0 < (exForm 300).amount then (exForm 300).amount
                 else round2 (((mkLines exDb.products (exForm 300).lines).map
                    (fun l => l.amount)).sum))] := by
  cases hres : orders_new exDb none (exForm 300) "T" "D" "C" with
  | none =>
    have h4 := orders_new_total_spec.2.2.2.1
    rw [hres] at h4
    simp at h4
  | some db' =>
    exact ⟨db', rfl, orders_new_total_spec.1 exDb none (exForm 300) "T" "D" "C" db' hres⟩

/-! ### C4 — order status transitions -/

def c4row : OrderRow :=
  { id := 1, order_no := "ORD-X", created_at := "2025-01-01 00:00:00", total := some 0,
    rep := none, supplier_id := none, product_id := none, quantity := none,
    unit_price := none, payment_method := "COD", status := "Delivered",
    delivery_date := some "2025-01-02", currency := "KES", notes := "",
    customer_name := "", customer_location := "", line_items := none,
    sales_rep_name := none }

/-- C4, counterexample: `Delivered` is not terminal.  The handler never
consults the current status, so posting `Cancelled` (or `Pending`) for an
already-delivered order overwrites its status. -/
theorem orders_update_status_terminal_cex :
    c4row.status = "Delivered" ∧
    (orders_update_status [c4row] 1 "Cancelled" "2025-02-02").1.map (fun o => o.status) =
      ["Cancelled"] ∧
    (orders_update_status [c4row] 1 "Pending" "2025-02-02").1.map (fun o => o.status) =
      ["Pending"] := by decide

/-- C4, amended: a requested status outside {Pending, Delivered, Cancelled}
(after trim and title-casing) is rejected with no mutation; a requested
status inside the set is applied to the matching order *regardless of its
current status* — Delivered and Cancelled are not terminal — and rows with
other ids are untouched. -/
theorem orders_update_status_spec (orders : List OrderRow) (oid : Int)
    (fs today : String) :
    (statusAllowed (pyTitle (pyStrip fs)) = false →
      orders_update_status orders oid fs today = (orders, false)) ∧
    (statusAllowed (pyTitle (pyStrip fs)) = true →
      (orders_update_status orders oid fs today).2 = true ∧
      (orders_update_status orders oid fs today).1.map (fun o => o.status) =
        orders.map (fun o => if o.id == oid then pyTitle (pyStrip fs) else o.status) ∧
      ∀ o ∈ orders, o.id ≠ oid → o ∈ (orders_update_status orders oid fs today).1) := by
  constructor
  · intro h
    simp [orders_update_status, h]
  · intro h
    refine ⟨by simp [orders_update_status, h], ?_, ?_⟩
    · simp only [orders_update_status, h, if_true, List.map_map]
      apply List.map_congr_left
      intro o _
      by_cases ho : o.id = oid <;> simp [ho]
    · intro o ho hne
      simp only [orders_update_status, h, if_true]
      exact List.mem_map.mpr ⟨o, ho, by simp [hne]⟩

/-- C4, witness for the amended theorem: a lower-case `"cancelled"` request
is accepted (title-cased) and applied. -/
theorem orders_update_status_spec_witness :
    statusAllowed (pyTitle (pyStrip "cancelled")) = true ∧
    (orders_update_status [c4row] 1 "cancelled" "2025-02-02").2 = true :=
  ⟨by decide, ((orders_update_status_spec [c4row] 1 "cancelled" "2025-02-02").2 (by decide)).1⟩

/-! ### C9 — attribution of created orders -/

def c9db : OrdersDb :=
  { users := [], products := [⟨1, 3, some "A", none, none⟩], orders := [],
    nextOrderId := 1, hasSalesRepIdCol := false, hasRepIdCol := false,
    hasSalesRepNameCol := false }

def c9form : OrderForm :=
  { customer_name := "", customer_location := "", notes := "", payment_method := "",
    delivery_date := "", currency := "", sales_rep := "", amount := 0,
    lines := [⟨none, some 1, 1, 10, 20, none⟩] }

/-- C9, counterexample: on the schema `ensure_schema` itself produces (no
`sales_rep_id`/`rep_id` column on `orders`), an order submitted with no
session user, no sales-rep text and an empty users table (so no
representative could possibly be resolved) is still inserted, with no
attribution stored anywhere. -/
theorem orders_new_unattributed_cex :
    c9db.users = [] ∧
    ((orders_new c9db none c9form "T" "D" "C").map fun d =>
      d.orders.map fun o => o.rep) = some [none] := by
  refine ⟨rfl, ?_⟩
  norm_num [orders_new, c9db, c9form, mkLines, findProduct, truncInt,
    List.filterMap_cons, List.filterMap_nil, List.find?, beq_self_eq_true]

/-- The `orders` table as created from scratch by `ensure_schema`
(app.py:141-182): note there is no `sales_rep_id` or `rep_id` column. -/
def freshOrdersTable : DbTable :=
  { present := true,
    cols := ["id", "created_at", "total", "supplier_id", "product_id", "quantity",
             "notes", "order_no", "unit_price", "payment_method", "status",
             "delivery_date", "currency", "customer_name", "customer_location",
             "line_items", "sales_rep_name"],
    rows := [] }

/-- C9, amended: the fail-without-insert guarantee holds only when the
orders table carries a representative column; `ensure_schema` never adds
one, and without it a successful creation silently appends an order with
no attribution.  Conjuncts: (1) with a rep column, an unresolvable
representative makes the operation fail with nothing inserted; (2) without
a rep column, a successful creation stores `none` as attribution; (3) the
orders table `ensure_schema` creates from scratch has no
`sales_rep_id`/`rep_id` column. -/
theorem orders_new_attribution_spec :
    (∀ (db : OrdersDb) (f : OrderForm) (now ti tc : String),
      (db.hasSalesRepIdCol || db.hasRepIdCol) = true →
      (pyStrip f.sales_rep ≠ "" → findRepByText db.users (pyStrip f.sales_rep) = none) →
      findByUsername db.users "staff" = none →
      findByUsername db.users "admin" = none →
      orders_new db none f now ti tc = none) ∧
    (∀ (db : OrdersDb) (caller : Option UserRow) (f : OrderForm) (now ti tc : String)
       (db' : OrdersDb),
      (db.hasSalesRepIdCol || db.hasRepIdCol) = false →
      orders_new db caller f now ti tc = some db' →
      db'.orders.map (fun o => o.rep) = db.orders.map (fun o => o.rep) ++ [none]) ∧
    (∀ (nowTs h1 h2 : String) (sdb : SchemaDb),
      sdb.orders.present = false →
      (ensure_schema nowTs h1 h2 sdb).orders = freshOrdersTable ∧
      hasCol freshOrdersTable "sales_rep_id" = false ∧
      hasCol freshOrdersTable "rep_id" = false) := by
  refine ⟨?_, ?_, ?_⟩
  · intro db f now ti tc hcol h2 h3 h4
    have hrv : resolveRep db none (pyStrip f.sales_rep) = none := by
      unfold resolveRep
      by_cases htxt : pyStrip f.sales_rep = ""
      · simp [htxt, h3, h4]
      · simp [htxt, h2 htxt, h3, h4]
    cases hml : mkLines db.products f.lines with
    | nil => simp [orders_new, hml]
    | cons first rest => simp [orders_new, hml, hcol, hrv]
  · intro db caller f now ti tc db' hcol h
    unfold orders_new at h
    cases hml : mkLines db.products f.lines with
    | nil => rw [hml] at h; simp at h
    | cons first rest =>
      rw [hml] at h
      dsimp only [] at h
      rw [hcol] at h
      simp at h
      subst h
      simp
  · intro nowTs h1 h2 sdb hpres
    refine ⟨?_, by decide, by decide⟩
    have hmo : ∀ b : Bool, migrateOrders sdb.orders b = (freshOrdersTable, true) := by
      intro b
      unfold migrateOrders
      rw [if_neg (by rw [hpres]; exact Bool.false_ne_true)]
      cases b <;> decide
    show (ensure_schema nowTs h1 h2 sdb).orders = freshOrdersTable
    unfold ensure_schema
    rw [hmo]

/-- C9, witness for the amended theorem, part (1): with a `rep_id` column
present and an empty users table, creation fails. -/
theorem orders_new_attribution_spec_witness :
    (({ c9db with hasRepIdCol := true } : OrdersDb).hasSalesRepIdCol ||
      ({ c9db with hasRepIdCol := true } : OrdersDb).hasRepIdCol) = true ∧
    orders_new { c9db with hasRepIdCol := true } none c9form "T" "D" "C" = none := by
  refine ⟨by decide, ?_⟩
  exact orders_new_attribution_spec.1 { c9db with hasRepIdCol := true } c9form "T" "D" "C"
    (by decide) (fun hne => absurd rfl hne) rfl rfl

/-! ### C10 — the history view recomputes totals from stored lines -/

def histOverrideRow : OrderRow :=
  { id := 1, order_no := "O", created_at := "T", total := some 300, rep := none,
    supplier_id := some 7, product_id := some 1, quantity := some 2,
    unit_price := some 100, payment_method := "COD", status := "Pending",
    delivery_date := none, currency := "KES", notes := "", customer_name := "",
    customer_location := "",
    line_items := some [⟨7, some 1, 2, 100, 200, none⟩, ⟨7, some 2, 1, 50, 50, none⟩],
    sales_rep_name := none }

/-- C10: for an order with a non-empty stored line-item collection, the
history view displays `round(sum of item amounts, 2)` recomputed from the
lines and is entirely independent of the stored `total` column; in
particular the override-300 example row displays 250, not its stored 300. -/
theorem orders_history_total_spec :
    (∀ (prods : List ProductRow) (users : List UserRow) (h : OrderRow)
       (items : List LineItem),
       h.line_items = some items → items ≠ [] →
       (orders_history_entry prods users h).total = round2 ((items.map histAmt).sum) ∧
       ∀ t' : Option ℚ, orders_history_entry prods users { h with total := t' } =
         orders_history_entry prods users h) ∧
    (orders_history_entry [] [] histOverrideRow).total = 250 ∧
    histOverrideRow.total = some 300 := by
  refine ⟨?_, ?_, rfl⟩
  · intro prods users h items hli hne
    constructor
    · unfold orders_history_entry
      rw [hli]
      cases items with
      | nil => exact absurd rfl hne
      | cons a t => rfl
    · intro t'
      unfold orders_history_entry
      rw [hli]
      cases items with
      | nil => exact absurd rfl hne
      | cons a t => rfl
  · norm_num [orders_history_entry, histOverrideRow, histAmt, round2, roundHalfEven]

/-- C10, witness at the override-300 example row. -/
theorem orders_history_total_spec_witness :
    histOverrideRow.line_items =
      some [⟨7, some 1, 2, 100, 200, none⟩, ⟨7, some 2, 1, 50, 50, none⟩] ∧
    (orders_history_entry [] [] histOverrideRow).total =
      round2 ((([⟨7, some 1, 2, 100, 200, none⟩,
                 ⟨7, some 2, 1, 50, 50, none⟩] : List LineItem).map histAmt).sum) :=
  ⟨rfl, (orders_history_total_spec.1 [] [] histOverrideRow _ rfl (by simp)).1⟩

/-! ### C8 — schema reconciliation: table-level lemmas -/

theorem addColIfAbsent_of_hasCol (t : DbTable) (c : String) (d : Cell)
    (h : hasCol t c = true) : addColIfAbsent t c d = t := by
  unfold addColIfAbsent
  rw [if_pos h]

theorem addColIfAbsent_present (t : DbTable) (c : String) (d : Cell) :
    (addColIfAbsent t c d).present = t.present := by
  unfold addColIfAbsent
  split <;> rfl

theorem hasCol_addColIfAbsent_self (t : DbTable) (c : String) (d : Cell) :
    hasCol (addColIfAbsent t c d) c = true := by
  unfold addColIfAbsent
  by_cases h : hasCol t c = true
  · rw [if_pos h]; exact h
  · rw [if_neg h]
    simp [hasCol, List.any_append]

theorem hasCol_addColIfAbsent_mono (t : DbTable) (c c' : String) (d : Cell)
    (h : hasCol t c' = true) : hasCol (addColIfAbsent t c d) c' = true := by
  unfold addColIfAbsent
  by_cases hc : hasCol t c = true
  · rw [if_pos hc]; exact h
  · rw [if_neg hc]
    unfold hasCol at h ⊢
    simp only [List.any_append, h, Bool.true_or]

theorem createTableIfAbsent_present (t : DbTable) (b : List String) :
    (createTableIfAbsent t b).present = true := by
  unfold createTableIfAbsent
  split
  · assumption
  · rfl

theorem createTableIfAbsent_of_present (t : DbTable) (b : List String)
    (h : t.present = true) : createTableIfAbsent t b = t := by
  unfold createTableIfAbsent
  rw [if_pos h]

theorem addColsIfAbsent_present (cs : List (String × Cell)) :
    ∀ t : DbTable, (addColsIfAbsent t cs).present = t.present := by
  induction cs with
  | nil => intro t; rfl
  | cons q qs ih =>
    intro t
    show (addColsIfAbsent (addColIfAbsent t q.1 q.2) qs).present = t.present
    rw [ih, addColIfAbsent_present]

theorem hasCol_addColsIfAbsent_mono (cs : List (String × Cell)) :
    ∀ (t : DbTable) (c : String), hasCol t c = true →
      hasCol (addColsIfAbsent t cs) c = true := by
  induction cs with
  | nil => intro t c h; exact h
  | cons q qs ih =>
    intro t c h
    exact ih _ c (hasCol_addColIfAbsent_mono t q.1 c q.2 h)

theorem hasCol_addColsIfAbsent_all (cs : List (String × Cell)) :
    ∀ (t : DbTable) (p : String × Cell), p ∈ cs →
      hasCol (addColsIfAbsent t cs) p.1 = true := by
  induction cs with
  | nil => intro t p hp; cases hp
  | cons q qs ih =>
    intro t p hp
    rcases List.mem_cons.mp hp with rfl | hp
    · exact hasCol_addColsIfAbsent_mono qs _ _ (hasCol_addColIfAbsent_self t p.1 p.2)
    · exact ih _ p hp

theorem addColsIfAbsent_of_all (cs : List (String × Cell)) :
    ∀ t : DbTable, (∀ p ∈ cs, hasCol t p.1 = true) → addColsIfAbsent t cs = t := by
  induction cs with
  | nil => intro t _; rfl
  | cons q qs ih =>
    intro t h
    show addColsIfAbsent (addColIfAbsent t q.1 q.2) qs = t
    rw [addColIfAbsent_of_hasCol t q.1 q.2 (h q (List.mem_cons_self q qs))]
    exact ih t (fun p hp => h p (List.mem_cons_of_mem q hp))

theorem seedUser_present (t : DbTable) (un pw role ts fn : String) :
    (seedUser t un pw role ts fn).present = t.present := by
  unfold seedUser
  split <;> rfl

theorem seedUser_of_seeded (t : DbTable) (un pw role ts fn : String)
    (h : t.rows.any (fun r => rowGet r "username" == some un) = true) :
    seedUser t un pw role ts fn = t := by
  unfold seedUser
  rw [if_pos h]

theorem seedUser_seeds (t : DbTable) (un pw role ts fn : String) :
    (seedUser t un pw role ts fn).rows.any
      (fun r => rowGet r "username" == some un) = true := by
  unfold seedUser
  by_cases h : t.rows.any (fun r => rowGet r "username" == some un) = true
  · rw [if_pos h]; exact h
  · rw [if_neg h]
    simp [List.any_append, rowGet]

theorem seedUser_any_mono (t : DbTable) (un pw role ts fn : String)
    (P : DbRow → Bool) (h : t.rows.any P = true) :
    (seedUser t un pw role ts fn).rows.any P = true := by
  unfold seedUser
  split
  · exact h
  · simp only [List.any_append, h, Bool.true_or]

/-- All columns the orders migration guarantees. -/
def ordersExpectedCols : List String :=
  ordersColsA.map Prod.fst ++ "order_no" :: ordersColsB.map Prod.fst

theorem migrateProducts_spec (t : DbTable) (hp : t.present = true) :
    (migrateProducts t).present = true ∧
    hasCol (migrateProducts t) "product_name" = true ∧
    hasCol (migrateProducts t) "unit_pack_info" = true ∧
    hasCol (migrateProducts t) "supplier_id" = true ∧
    (∀ c, hasCol t c = true → hasCol (migrateProducts t) c = true) := by
  have key : ∀ t1 : DbTable, t1.present = true → hasCol t1 "product_name" = true →
      (∀ c, hasCol t c = true → hasCol t1 c = true) →
      (addColIfAbsent (addColIfAbsent t1 "unit_pack_info" none) "supplier_id" none).present
          = true ∧
      hasCol (addColIfAbsent (addColIfAbsent t1 "unit_pack_info" none) "supplier_id" none)
          "product_name" = true ∧
      hasCol (addColIfAbsent (addColIfAbsent t1 "unit_pack_info" none) "supplier_id" none)
          "unit_pack_info" = true ∧
      hasCol (addColIfAbsent (addColIfAbsent t1 "unit_pack_info" none) "supplier_id" none)
          "supplier_id" = true ∧
      (∀ c, hasCol t c = true →
        hasCol (addColIfAbsent (addColIfAbsent t1 "unit_pack_info" none) "supplier_id" none)
          c = true) := by
    intro t1 h1 h2 h3
    refine ⟨?_, ?_, ?_, ?_, ?_⟩
    · rw [addColIfAbsent_present, addColIfAbsent_present]; exact h1
    · exact hasCol_addColIfAbsent_mono _ _ _ _ (hasCol_addColIfAbsent_mono _ _ _ _ h2)
    · exact hasCol_addColIfAbsent_mono _ _ _ _ (hasCol_addColIfAbsent_self _ _ _)
    · exact hasCol_addColIfAbsent_self _ _ _
    · intro c hc
      exact hasCol_addColIfAbsent_mono _ _ _ _
        (hasCol_addColIfAbsent_mono _ _ _ _ (h3 c hc))
  unfold migrateProducts
  rw [if_pos hp]
  by_cases hpn : hasCol t "product_name" = true
  · rw [if_pos hpn]
    exact key t hp hpn (fun c hc => hc)
  · rw [if_neg hpn]
    by_cases hname : hasCol (addColIfAbsent t "product_name" none) "name" = true
    · rw [if_pos hname]
      refine key _ ?_ ?_ ?_
      · show (addColIfAbsent t "product_name" none).present = true
        rw [addColIfAbsent_present]; exact hp
      · show hasCol (addColIfAbsent t "product_name" none) "product_name" = true
        exact hasCol_addColIfAbsent_self _ _ _
      · intro c hc
        show hasCol (addColIfAbsent t "product_name" none) c = true
        exact hasCol_addColIfAbsent_mono _ _ _ _ hc
    · rw [if_neg hname]
      refine key _ ?_ (hasCol_addColIfAbsent_self _ _ _) ?_
      · rw [addColIfAbsent_present]; exact hp
      · intro c hc
        exact hasCol_addColIfAbsent_mono _ _ _ _ hc

theorem migrateProducts_of_migrated (t : DbTable)
    (hpn : hasCol t "product_name" = true)
    (hup : hasCol t "unit_pack_info" = true)
    (hsid : hasCol t "supplier_id" = true) : migrateProducts t = t := by
  unfold migrateProducts
  by_cases hp : t.present = true
  · rw [if_pos hp, if_pos hpn]
    dsimp only []
    rw [addColIfAbsent_of_hasCol t _ _ hup, addColIfAbsent_of_hasCol t _ _ hsid]
  · rw [if_neg hp]

theorem migrateOrders_fst (t : DbTable) (idx : Bool) :
    (migrateOrders t idx).1 =
      addColsIfAbsent
        (addColIfAbsent
          (addColsIfAbsent
            (if t.present then t
             else { present := true, cols := ["id", "created_at", "total"], rows := [] })
            ordersColsA)
          "order_no" none)
        ordersColsB := by
  unfold migrateOrders
  dsimp only []

theorem migrateOrders_spec (t : DbTable) (idx : Bool) :
    (migrateOrders t idx).1.present = true ∧
    ∀ c ∈ ordersExpectedCols, hasCol (migrateOrders t idx).1 c = true := by
  rw [migrateOrders_fst]
  constructor
  · rw [addColsIfAbsent_present, addColIfAbsent_present, addColsIfAbsent_present]
    by_cases hp : t.present = true
    · rw [if_pos hp]; exact hp
    · rw [if_neg hp]
  · intro c hc
    rcases List.mem_append.mp hc with hA | hB
    · obtain ⟨p, hpmem, rfl⟩ := List.mem_map.mp hA
      exact hasCol_addColsIfAbsent_mono _ _ _
        (hasCol_addColIfAbsent_mono _ _ _ _ (hasCol_addColsIfAbsent_all _ _ p hpmem))
    · rcases List.mem_cons.mp hB with rfl | hB'
      · exact hasCol_addColsIfAbsent_mono _ _ _ (hasCol_addColIfAbsent_self _ _ _)
      · obtain ⟨p, hpmem, rfl⟩ := List.mem_map.mp hB'
        exact hasCol_addColsIfAbsent_all _ _ p hpmem

theorem migrateOrders_of_migrated (t : DbTable) (idx : Bool)
    (hp : t.present = true)
    (hcols : ∀ c ∈ ordersExpectedCols, hasCol t c = true) :
    migrateOrders t idx = (t, idx) := by
  have hA : ∀ p ∈ ordersColsA, hasCol t p.1 = true := fun p hp' =>
    hcols p.1 (List.mem_append.mpr (Or.inl (List.mem_map_of_mem Prod.fst hp')))
  have hB : ∀ p ∈ ordersColsB, hasCol t p.1 = true := fun p hp' =>
    hcols p.1 (List.mem_append.mpr (Or.inr (List.mem_cons_of_mem _
      (List.mem_map_of_mem Prod.fst hp'))))
  have hN : hasCol t "order_no" = true :=
    hcols "order_no" (List.mem_append.mpr (Or.inr (List.mem_cons_self _ _)))
  unfold migrateOrders
  rw [if_pos hp]
  dsimp only []
  rw [addColsIfAbsent_of_all _ _ hA, addColIfAbsent_of_hasCol t _ _ hN,
    addColsIfAbsent_of_all _ _ hB, hN, if_pos rfl]

/-- The fully-reconciled shape: every table present, every expected column
present, the two baseline accounts seeded, and the unconditional indexes
created — exactly what holds after one `ensure_schema` run, and under
which a run is the identity. -/
structure Settled (db : SchemaDb) : Prop where
  users_present : db.users.present = true
  suppliers_present : db.suppliers.present = true
  products_present : db.products.present = true
  orders_present : db.orders.present = true
  rep_targets_present : db.rep_targets.present = true
  supplier_targets_present : db.supplier_targets.present = true
  supplier_actuals_present : db.supplier_actuals.present = true
  rep_actuals_present : db.rep_actuals.present = true
  products_name : hasCol db.products "name" = true
  products_product_name : hasCol db.products "product_name" = true
  products_unit_pack : hasCol db.products "unit_pack_info" = true
  products_supplier_id : hasCol db.products "supplier_id" = true
  orders_cols : ∀ c ∈ ordersExpectedCols, hasCol db.orders c = true
  admin_seeded : db.users.rows.any (fun r => rowGet r "username" == some "admin") = true
  staff_seeded : db.users.rows.any (fun r => rowGet r "username" == some "staff") = true
  idx_st : db.idx_supplier_targets_unique = true
  idx_rt : db.idx_rep_targets_unique = true

/-- `ensure_schema` written out componentwise. -/
theorem ensure_schema_proj (tms ah sh : String) (db : SchemaDb) :
    ensure_schema tms ah sh db =
      { users := seedUser (seedUser (createTableIfAbsent db.users
            ["id", "username", "password_hash", "role", "created_at", "full_name"])
          "admin" ah "admin" tms "Administrator") "staff" sh "rep" tms "Staff",
        suppliers := createTableIfAbsent db.suppliers ["id", "name"],
        products := migrateProducts (addColIfAbsent (createTableIfAbsent db.products
            ["id", "supplier_id", "product_name", "unit_pack_info"]) "name" none),
        orders := (migrateOrders db.orders db.idx_orders_order_no).1,
        rep_targets := createTableIfAbsent db.rep_targets
          ["id", "rep_id", "month", "year", "target_value"],
        supplier_targets := createTableIfAbsent db.supplier_targets
          ["id", "supplier_id", "month", "year", "target_value"],
        supplier_actuals := createTableIfAbsent db.supplier_actuals
          ["id", "supplier_id", "month", "year", "mtd_value"],
        rep_actuals := createTableIfAbsent db.rep_actuals
          ["id", "rep_id", "month", "year", "mtd_value"],
        idx_orders_order_no := (migrateOrders db.orders db.idx_orders_order_no).2,
        idx_supplier_targets_unique := true,
        idx_rep_targets_unique := true } := by
  unfold ensure_schema
  rcases hmo : migrateOrders db.orders db.idx_orders_order_no with ⟨ot, ib⟩
  dsimp only []


/-! ### C8 — row preservation through the legacy-name backfill -/

/-- Preservation of an already-present, non-empty `product_name` value
between an input row and its migrated image. -/
def PresPN (r r' : DbRow) : Prop :=
  ∀ v : String, rowGet r "product_name" = some v → v ≠ "" →
    rowGet r' "product_name" = some v

theorem forall₂_presPN_refl (l : List DbRow) : List.Forall₂ PresPN l l := by
  induction l with
  | nil => exact List.Forall₂.nil
  | cons a t ih => exact List.Forall₂.cons (fun v hv _ => hv) ih

theorem forall₂_presPN_map (l : List DbRow) (f : DbRow → DbRow)
    (h : ∀ r, PresPN r (f r)) : List.Forall₂ PresPN l (l.map f) := by
  induction l with
  | nil => exact List.Forall₂.nil
  | cons a t ih => exact List.Forall₂.cons (h a) ih

theorem forall₂_presPN_trans {a b c : List DbRow}
    (h1 : List.Forall₂ PresPN a b) (h2 : List.Forall₂ PresPN b c) :
    List.Forall₂ PresPN a c := by
  induction h1 generalizing c with
  | nil => cases h2; exact List.Forall₂.nil
  | cons hab _ ih =>
    cases h2 with
    | cons hbc h2' =>
      exact List.Forall₂.cons (fun v hv hne => hbc v (hab v hv hne) hne) (ih h2')

theorem rowGet_append (r l : DbRow) (x : String) (h : rowGet r x ≠ none) :
    rowGet (r ++ l) x = rowGet r x := by
  unfold rowGet at *
  cases hf : r.find? (fun p => p.1 == x) with
  | none => rw [hf] at h; simp at h
  | some p =>
    rw [List.find?_append, hf]
    simp [Option.orElse]

theorem addColIfAbsent_rows_pres (t : DbTable) (c : String) (d : Cell) :
    List.Forall₂ PresPN t.rows (addColIfAbsent t c d).rows := by
  unfold addColIfAbsent
  split
  · exact forall₂_presPN_refl _
  · dsimp only []
    refine forall₂_presPN_map _ _ (fun r v hv hne => ?_)
    rw [rowGet_append r _ _ (by rw [hv]; simp), hv]

theorem migrateProducts_rows_pres (t : DbTable) :
    List.Forall₂ PresPN t.rows (migrateProducts t).rows := by
  unfold migrateProducts
  by_cases hp : t.present = true
  · rw [if_pos hp]
    dsimp only []
    by_cases hpn : hasCol t "product_name" = true
    · rw [if_pos hpn]
      exact forall₂_presPN_trans (addColIfAbsent_rows_pres t _ _)
        (addColIfAbsent_rows_pres _ _ _)
    · rw [if_neg hpn]
      by_cases hname : hasCol (addColIfAbsent t "product_name" none) "name" = true
      · rw [if_pos hname]
        refine forall₂_presPN_trans (addColIfAbsent_rows_pres t "product_name" none) ?_
        refine forall₂_presPN_trans ?_
          (forall₂_presPN_trans (addColIfAbsent_rows_pres _ _ _)
            (addColIfAbsent_rows_pres _ _ _))
        show List.Forall₂ PresPN (addColIfAbsent t "product_name" none).rows _
        refine forall₂_presPN_map _ _ (fun r v hv hne => ?_)
        dsimp only []
        rw [if_neg (by rw [hv]; simp [hne]), hv]
      · rw [if_neg hname]
        exact forall₂_presPN_trans (addColIfAbsent_rows_pres t _ _)
          (forall₂_presPN_trans (addColIfAbsent_rows_pres _ _ _)
            (addColIfAbsent_rows_pres _ _ _))
  · rw [if_neg hp]
    exact forall₂_presPN_refl _

/- The schema-table helpers are proved above by explicit lemmas; make them
irreducible so that later unification does not unfold the guarded
`ALTER`/`CREATE` chains (whose conditions nest exponentially). -/
attribute [irreducible] hasCol addColIfAbsent addColsIfAbsent createTableIfAbsent
attribute [irreducible] migrateProducts migrateOrders seedUser

set_option maxHeartbeats 1000000 in
theorem settled_ensure (tms ah sh : String) (db : SchemaDb) :
    Settled (ensure_schema tms ah sh db) := by
  rw [ensure_schema_proj]
  have hXp : (addColIfAbsent (createTableIfAbsent db.products
      ["id", "supplier_id", "product_name", "unit_pack_info"]) "name" none).present
      = true := by
    rw [addColIfAbsent_present, createTableIfAbsent_present]
  have hmp := migrateProducts_spec _ hXp
  have hmo := migrateOrders_spec db.orders db.idx_orders_order_no
  refine ⟨?_, ?_, ?_, ?_, ?_, ?_, ?_, ?_, ?_, ?_, ?_, ?_, ?_, ?_, ?_, rfl, rfl⟩
  · show (seedUser (seedUser _ "admin" ah "admin" tms "Administrator")
      "staff" sh "rep" tms "Staff").present = true
    rw [seedUser_present, seedUser_present, createTableIfAbsent_present]
  · exact createTableIfAbsent_present _ _
  · exact hmp.1
  · exact hmo.1
  · exact createTableIfAbsent_present _ _
  · exact createTableIfAbsent_present _ _
  · exact createTableIfAbsent_present _ _
  · exact createTableIfAbsent_present _ _
  · exact hmp.2.2.2.2 "name" (hasCol_addColIfAbsent_self _ _ _)
  · exact hmp.2.1
  · exact hmp.2.2.1
  · exact hmp.2.2.2.1
  · exact hmo.2
  · exact seedUser_any_mono _ _ _ _ _ _ _ (seedUser_seeds _ _ _ _ _ _)
  · exact seedUser_seeds _ _ _ _ _ _

theorem ensure_of_settled (tms ah sh : String) (db : SchemaDb) (h : Settled db) :
    ensure_schema tms ah sh db = db := by
  obtain ⟨u, s, p, o, rt, st, sa, ra, i1, i2, i3⟩ := db
  rw [ensure_schema_proj]
  rw [createTableIfAbsent_of_present _ _ h.users_present,
    createTableIfAbsent_of_present _ _ h.suppliers_present,
    createTableIfAbsent_of_present _ _ h.products_present,
    createTableIfAbsent_of_present _ _ h.rep_targets_present,
    createTableIfAbsent_of_present _ _ h.supplier_targets_present,
    createTableIfAbsent_of_present _ _ h.supplier_actuals_present,
    createTableIfAbsent_of_present _ _ h.rep_actuals_present,
    addColIfAbsent_of_hasCol _ _ _ h.products_name,
    migrateProducts_of_migrated _ h.products_product_name h.products_unit_pack
      h.products_supplier_id,
    migrateOrders_of_migrated _ _ h.orders_present h.orders_cols,
    seedUser_of_seeded _ _ _ _ _ _ h.admin_seeded,
    seedUser_of_seeded _ _ _ _ _ _ h.staff_seeded]
  have hi2 : i2 = true := h.idx_st
  have hi3 : i3 = true := h.idx_rt
  rw [hi2, hi3]

/-- C8: schema reconciliation is idempotent — a second `ensure_schema` run
(whatever its seeding timestamp and password hashes) changes nothing at
all — and, on an existing products table, a run never overwrites a
non-empty `product_name` value of any existing row (the legacy-name
backfill writes only where the value is null or empty). -/
theorem ensure_schema_idempotent_spec :
    (∀ (t1 a1 s1 t2 a2 s2 : String) (db : SchemaDb),
      ensure_schema t2 a2 s2 (ensure_schema t1 a1 s1 db) = ensure_schema t1 a1 s1 db) ∧
    (∀ (t1 a1 s1 : String) (db : SchemaDb),
      db.products.present = true →
      List.Forall₂ PresPN db.products.rows (ensure_schema t1 a1 s1 db).products.rows) := by
  constructor
  · intro t1 a1 s1 t2 a2 s2 db
    exact ensure_of_settled t2 a2 s2 _ (settled_ensure t1 a1 s1 db)
  · intro t1 a1 s1 db hpres
    rw [ensure_schema_proj]
    show List.Forall₂ PresPN db.products.rows
      (migrateProducts (addColIfAbsent (createTableIfAbsent db.products
        ["id", "supplier_id", "product_name", "unit_pack_info"]) "name" none)).rows
    rw [createTableIfAbsent_of_present _ _ hpres]
    exact forall₂_presPN_trans (addColIfAbsent_rows_pres db.products "name" none)
      (migrateProducts_rows_pres _)

def c8usersT : DbTable :=
  { present := true,
    cols := ["id", "username", "password_hash", "role", "created_at", "full_name"],
    rows := [] }

def c8productsT : DbTable :=
  { present := true, cols := ["id", "supplier_id", "name"],
    rows := [[("id", some "1"), ("supplier_id", some "2"), ("name", some "Legacy")]] }

def emptyT : DbTable := { present := false, cols := [], rows := [] }

def c8db : SchemaDb :=
  { users := c8usersT,
    suppliers := { present := true, cols := ["id", "name"], rows := [] },
    products := c8productsT,
    orders := emptyT, rep_targets := emptyT, supplier_targets := emptyT,
    supplier_actuals := emptyT, rep_actuals := emptyT,
    idx_orders_order_no := false,
    idx_supplier_targets_unique := false,
    idx_rep_targets_unique := false }

/-- C8, witness: a legacy store whose products table still has only the
old `name` column. -/
theorem ensure_schema_idempotent_spec_witness :
    c8db.products.present = true ∧
    List.Forall₂ PresPN c8db.products.rows
      (ensure_schema "t" "a" "s" c8db).products.rows :=
  ⟨rfl, ensure_schema_idempotent_spec.2 "t" "a" "s" c8db rfl⟩

end Kwetu
